import Mathlib

/-!
# Verification development for `iudanet/minio_cliner`

Shallow embedding of the lifecycle-policy reconciliation and version-pruning
logic of `main.go`, together with theorems settling the frozen claims.

The repository ships two revisions of the program concatenated in `main.go`:
an earlier revision (the "double-scan" cleaner, old `processBucket` /
`hasCorrectPolicy` / `updateLifecycleConfig`) and the current revision
(rule-targeted `processBucket`, four-field `hasCorrectRule`,
`removeRuleByID`, and the single-scan bounded pipeline in
`cleanSingleBucket`).  The current revision is embedded as the authority;
the earlier revision's real-run cleaner is embedded separately as
`cleanSingleBucketDoubleScan` because one claim is about it.
-/

namespace MinioCliner

/-- The part of minio-go's `lifecycle.NoncurrentVersionExpiration` that the
tool reads or writes: `NoncurrentDays` and `NewerNoncurrentVersions`. -/
structure NoncurrentVersionExpiration where
  noncurrentDays : Int
  newerNoncurrentVersions : Int
deriving Repr, DecidableEq

/-- The part of minio-go's `lifecycle.Expiration` that the tool reads or
writes: the `DeleteMarker` flag. -/
structure Expiration where
  deleteMarker : Bool
deriving Repr, DecidableEq

/-- minio-go's `lifecycle.Rule`, restricted to the fields the tool touches.
`rest` stands for every remaining field of the Go struct (filter, transition
clauses, ...), which the tool never inspects; carrying it makes the
byte-for-byte preservation of unrelated rules a meaningful statement. -/
structure Rule where
  id : String
  status : String
  noncurrentVersionExpiration : NoncurrentVersionExpiration
  expiration : Expiration
  rest : String := ""
deriving Repr, DecidableEq

/-- minio-go's `lifecycle.Configuration`: an ordered list of rules. -/
structure Configuration where
  rules : List Rule
deriving Repr, DecidableEq

/-- The reserved identifier of the managed rule (`ruleID` in `processBucket`). -/
def ruleID : String := "auto-clean-versions"

/-- The single canonical managed rule built by `createDefaultLifecycle`
(current revision): enabled, one-day noncurrent expiration, one retained
newest noncurrent version, delete-marker removal on. -/
def defaultRule : Rule :=
  { id := ruleID
    status := "Enabled"
    noncurrentVersionExpiration := { noncurrentDays := 1, newerNoncurrentVersions := 1 }
    expiration := { deleteMarker := true } }

/-- `createDefaultLifecycle` from `main.go`: a configuration holding exactly
the one canonical rule. -/
def createDefaultLifecycle : Configuration := ⟨[defaultRule]⟩

/-- `hasCorrectRule` from `main.go` (current revision): the four-field check
for a canonical rule. -/
def hasCorrectRule (rule : Rule) : Bool :=
  rule.status == "Enabled" &&
    rule.noncurrentVersionExpiration.noncurrentDays == 1 &&
    rule.noncurrentVersionExpiration.newerNoncurrentVersions == 1 &&
    rule.expiration.deleteMarker

/-- `hasCorrectPolicy` from `main.go` (current revision): some rule of the
configuration passes the four-field check. -/
def hasCorrectPolicy (lc : Configuration) : Bool :=
  lc.rules.any (fun rule => hasCorrectRule rule)

/-- `removeRuleByID` from `main.go`: drop every rule whose identifier equals
`ilmID` by in-place slice compaction (here: `List.filter`, which keeps the
survivors in order exactly as the compaction does); report whether anything
was removed.  An empty rule list is returned untouched with `false`. -/
def removeRuleByID (lfcCfg : Configuration) (ilmID : String) : Configuration × Bool :=
  if lfcCfg.rules.length = 0 then (lfcCfg, false)
  else if (lfcCfg.rules.filter (fun rule => !(rule.id == ilmID))).length = lfcCfg.rules.length then
    (lfcCfg, false)
  else (⟨lfcCfg.rules.filter (fun rule => !(rule.id == ilmID))⟩, true)

/-- Outcome of one reconciliation, following the spec's Action vocabulary.
`Failed` is the `processBucket` branch that logs
"Failed to remove existing rule" and returns without writing; the code can
never actually reach it (see `reconcile_never_fails`). -/
inductive Action
  | NoChange
  | Created
  | Replaced
  | Failed
deriving Repr, DecidableEq

/-- The pure reconciliation core of `processBucket` (current revision).
`none` is the absent-configuration sentinel (`NoSuchLifecycleConfiguration`):
the code writes `createDefaultLifecycle`.  Otherwise the code looks up the
first rule whose identifier is `ruleID`; if there is none it appends the
canonical rule, if it is already correct it leaves the set alone, and
otherwise it removes every rule with the reserved identifier and appends a
fresh canonical rule. -/
def reconcile : Option Configuration → Configuration × Action
  | none => (createDefaultLifecycle, Action.Created)
  | some lc =>
    match lc.rules.find? (fun rule => rule.id == ruleID) with
    | none => (⟨lc.rules ++ [defaultRule]⟩, Action.Replaced)
    | some ourRule =>
      if hasCorrectRule ourRule then
        (lc, Action.NoChange)
      else
        match removeRuleByID lc ruleID with
        | (lc2, true) => (⟨lc2.rules ++ [defaultRule]⟩, Action.Replaced)
        | (_, false) => (lc, Action.Failed)

/-- The fields of minio-go's `minio.ObjectInfo` that the cleaner reads:
object key, version identifier and the `IsLatest` flag. -/
structure ObjectInfo where
  key : String
  versionID : String
  isLatest : Bool
deriving Repr, DecidableEq

/-- Why the selection goroutine of `cleanSingleBucket` stopped consuming the
listing: the listing channel was exhausted, the per-run object limit was hit
right after an enqueue (`processedCount >= maxObjectsPerRun`), or a send on
the bounded `removeObjectsCh` blocked because the buffer was full and nobody
was draining it (the goroutine then sits in the `select` until the
five-minute context deadline releases it). -/
inductive StopReason
  | listingExhausted
  | limitReached
  | blockedOnFull
deriving Repr, DecidableEq

/-- Result of the selection goroutine: `totalCount` (every listed record,
current or not), the records successfully sent into `removeObjectsCh` in
send order (`processedCount` is its length), and why the stage stopped. -/
structure SelectResult where
  totalCount : Nat
  selected : List ObjectInfo
  stop : StopReason
deriving Repr, DecidableEq

/-- One step of the selection goroutine of `cleanSingleBucket` (current
revision, the `for obj := range objectsCh` loop).  `drains` abstracts the
other end of `removeObjectsCh`: in a real run `RemoveObjects` consumes the
channel so a send always completes; in a dry run nothing reads the channel,
so a send completes only while fewer than `cap` records sit in the buffer
and blocks once the buffer is full.  For every record the total counter is
incremented; a non-latest record is then sent, the processed counter is
incremented, and the loop returns as soon as the processed count reaches
`quota` (`maxObjectsPerRun`). -/
def selectGo (drains : Bool) (cap quota : Nat) :
    List ObjectInfo → Nat → List ObjectInfo → SelectResult
  | [], total, sel => ⟨total, sel, StopReason.listingExhausted⟩
  | obj :: restObjs, total, sel =>
    if obj.isLatest then
      selectGo drains cap quota restObjs (total + 1) sel
    else if drains = true ∨ sel.length < cap then
      if quota ≤ sel.length + 1 then
        ⟨total + 1, sel ++ [obj], StopReason.limitReached⟩
      else
        selectGo drains cap quota restObjs (total + 1) (sel ++ [obj])
    else
      ⟨total + 1, sel, StopReason.blockedOnFull⟩

/-- The whole selection stage, started on a fresh listing with zeroed
counters and an empty buffer. -/
def selectStage (drains : Bool) (cap quota : Nat) (listing : List ObjectInfo) :
    SelectResult :=
  selectGo drains cap quota listing 0 []

/-- A `minio.RemoveObjectError` as the cleaner reads it. -/
structure RemoveError where
  objectName : String
  versionID : String
deriving Repr, DecidableEq

/-- The spec's RunReport for one pruning run: records observed, records
selected (in selection order), records actually removed, per-object
failures. -/
structure RunReport where
  observed : Nat
  selected : List ObjectInfo
  removed : Nat
  failures : List RemoveError
deriving Repr, DecidableEq

/-- The pure core of `cleanSingleBucket` (current revision).
`removeResult` abstracts the batch-delete collaborator: for each forwarded
record it reports either a per-object failure or success.  The bounded
channel capacity equals `maxObjectsPerRun`, and in a dry run the deletion
goroutine performs no call and drains nothing, so the selection stage runs
with `drains = false`; in a real run `RemoveObjects` drains the channel.
Under dry run nothing is removed and no failure can be reported. -/
def cleanSingleBucket (dryRun : Bool) (maxObjectsPerRun : Nat)
    (removeResult : ObjectInfo → Option RemoveError)
    (listing : List ObjectInfo) : RunReport :=
  let res := selectStage (!dryRun) maxObjectsPerRun maxObjectsPerRun listing
  if dryRun then
    ⟨res.totalCount, res.selected, 0, []⟩
  else
    let failures := res.selected.filterMap removeResult
    ⟨res.totalCount, res.selected, res.selected.length - failures.length, failures⟩

/-- The counting pass of the earlier revision's real-run `cleanSingleBucket`
(`for obj := range objectsChForDelete` incrementing `totalCount` for every
non-latest record): it consumes the channel until it is exhausted, returning
the count and what is left of the channel afterwards. -/
def drainChannel : List ObjectInfo → Nat → Nat × List ObjectInfo
  | [], totalCount => (totalCount, [])
  | obj :: restObjs, totalCount =>
    drainChannel restObjs (if obj.isLatest then totalCount else totalCount + 1)

/-- The earlier revision's real-run path of `cleanSingleBucket`
("double-scan" variant): first the counting loop drains
`objectsChForDelete`, then a goroutine ranges over the very same
non-restartable channel and forwards every non-latest record it can still
receive to `RemoveObjects`.  Returns the logged count and the forwarded
batch. -/
def cleanSingleBucketDoubleScan (listing : List ObjectInfo) :
    Nat × List ObjectInfo :=
  let counted := drainChannel listing 0
  let forwarded := counted.2.filter (fun obj => !obj.isLatest)
  (counted.1, forwarded)

/-! ## Concrete example data used by counterexamples and witnesses -/

/-- A rule that passes the four-field check but carries an identifier other
than the reserved one (e.g. left behind by a different tool). -/
def otherCanonicalRule : Rule :=
  { id := "legacy-cleanup"
    status := "Enabled"
    noncurrentVersionExpiration := { noncurrentDays := 1, newerNoncurrentVersions := 1 }
    expiration := { deleteMarker := true } }

/-- An unrelated rule: identifier differs from the reserved one and the rule
is not canonical. -/
def strangerRule : Rule :=
  { id := "backup-expiry"
    status := "Disabled"
    noncurrentVersionExpiration := { noncurrentDays := 30, newerNoncurrentVersions := 5 }
    expiration := { deleteMarker := false } }

/-- A rule under the reserved identifier that fails the four-field check. -/
def badReservedRule : Rule := { defaultRule with status := "Disabled" }

/-- A non-current object version. -/
def nonCurrentObj : ObjectInfo := ⟨"report.csv", "v1", false⟩

/-- The current (latest) version of the same object. -/
def currentObj : ObjectInfo := ⟨"report.csv", "v2", true⟩

/-- A second non-current object version. -/
def nonCurrentObjB : ObjectInfo := ⟨"invoice.pdf", "v7", false⟩

/-! ## Reconciliation lemmas -/

/-- Unfolding of the four-field check into propositional form. -/
theorem hasCorrectRule_iff (rule : Rule) :
    hasCorrectRule rule = true ↔
      rule.status = "Enabled" ∧
      rule.noncurrentVersionExpiration.noncurrentDays = 1 ∧
      rule.noncurrentVersionExpiration.newerNoncurrentVersions = 1 ∧
      rule.expiration.deleteMarker = true := by
  simp [hasCorrectRule, and_assoc]

/-- The managed rule built by `createDefaultLifecycle` passes its own check. -/
theorem hasCorrectRule_defaultRule : hasCorrectRule defaultRule = true := by decide

/-- When a rule with the given identifier is present, `removeRuleByID`
filters out every rule bearing it and reports success. -/
theorem removeRuleByID_found (lc : Configuration) (r : Rule)
    (h : lc.rules.find? (fun rule => rule.id == ruleID) = some r) :
    removeRuleByID lc ruleID =
      (⟨lc.rules.filter (fun rule => !(rule.id == ruleID))⟩, true) := by
  have hmem : r ∈ lc.rules := List.mem_of_find?_eq_some h
  have hr : (r.id == ruleID) = true := by
    have hp := List.find?_some h
    simpa using hp
  have hne : ¬ lc.rules.length = 0 := by
    intro h0
    rw [List.length_eq_zero] at h0
    rw [h0] at hmem
    exact absurd hmem (List.not_mem_nil r)
  have hlen :
      ¬ ((lc.rules.filter (fun rule => !(rule.id == ruleID))).length = lc.rules.length) := by
    rw [List.filter_length_eq_length]
    intro hall
    have hcontra := hall r hmem
    rw [hr] at hcontra
    exact absurd hcontra (by decide)
  unfold removeRuleByID
  rw [if_neg hne, if_neg hlen]

/-- `reconcile` when no rule bears the reserved identifier: append the
managed rule. -/
theorem reconcile_find_none (lc : Configuration)
    (h : lc.rules.find? (fun rule => rule.id == ruleID) = none) :
    reconcile (some lc) = (⟨lc.rules ++ [defaultRule]⟩, Action.Replaced) := by
  simp [reconcile, h]

/-- `reconcile` when the first rule bearing the reserved identifier is
canonical: leave the configuration alone. -/
theorem reconcile_find_correct (lc : Configuration) (r : Rule)
    (h : lc.rules.find? (fun rule => rule.id == ruleID) = some r)
    (hc : hasCorrectRule r = true) :
    reconcile (some lc) = (lc, Action.NoChange) := by
  simp [reconcile, h, hc]

/-- `reconcile` when the first rule bearing the reserved identifier is not
canonical: drop every rule with that identifier and append a fresh managed
rule. -/
theorem reconcile_find_incorrect (lc : Configuration) (r : Rule)
    (h : lc.rules.find? (fun rule => rule.id == ruleID) = some r)
    (hc : hasCorrectRule r = false) :
    reconcile (some lc) =
      (⟨lc.rules.filter (fun rule => !(rule.id == ruleID)) ++ [defaultRule]⟩,
        Action.Replaced) := by
  simp [reconcile, h, hc, removeRuleByID_found lc r h]

/-- Looking for the reserved identifier in a list of rules that all avoid it,
followed by the managed rule, finds the managed rule. -/
theorem find?_append_defaultRule (xs : List Rule)
    (h : ∀ r ∈ xs, (r.id == ruleID) = false) :
    (xs ++ [defaultRule]).find? (fun rule => rule.id == ruleID) = some defaultRule := by
  rw [List.find?_append]
  have h1 : xs.find? (fun rule => rule.id == ruleID) = none := by
    rw [List.find?_eq_none]
    intro x hx
    simp [h x hx]
  rw [h1]
  simp
  decide

/-- The managed rule carries the reserved identifier. -/
theorem defaultRule_id : defaultRule.id = ruleID := rfl

/-- The managed rule is a member of any list it is appended to. -/
theorem defaultRule_mem_append (xs : List Rule) : defaultRule ∈ xs ++ [defaultRule] := by
  simp

/-- The logged removal-failure branch of `processBucket` is unreachable:
`reconcile` never returns `Failed`. -/
theorem reconcile_never_fails (olc : Option Configuration) :
    (reconcile olc).2 ≠ Action.Failed := by
  match olc with
  | none => simp [reconcile]
  | some lc =>
    cases h : lc.rules.find? (fun rule => rule.id == ruleID) with
    | none => rw [reconcile_find_none lc h]; simp
    | some r =>
      cases hc : hasCorrectRule r with
      | true => rw [reconcile_find_correct lc r h hc]; simp
      | false => rw [reconcile_find_incorrect lc r h hc]; simp

/-! ## Claim C1 -/

/-- C1 (counterexample): the claim says that whenever `evaluate`
(`hasCorrectPolicy`) is true, `reconcile` returns the rule set unmodified
with Action NoChange, even when the canonical rule's identifier differs from
the reserved one.  On a configuration whose only rule is canonical under the
identifier "legacy-cleanup", `hasCorrectPolicy` is true, yet `reconcile`
does not return it unmodified with NoChange: it appends the managed rule,
growing the set to two rules. -/
theorem evaluate_true_yet_changed :
    hasCorrectPolicy ⟨[otherCanonicalRule]⟩ = true ∧
    reconcile (some ⟨[otherCanonicalRule]⟩) ≠
      ((⟨[otherCanonicalRule]⟩ : Configuration), Action.NoChange) ∧
    (reconcile (some ⟨[otherCanonicalRule]⟩)).1.rules.length = 2 := by
  refine ⟨by decide, by decide, by decide⟩

/-- C1 (amended): `reconcile` returns Action NoChange precisely when the
first rule bearing the reserved identifier passes the four-field check, and
in that case the configuration is returned unmodified; `evaluate` being true
only through a rule under a different identifier does not yield NoChange. -/
theorem reconcile_noChange_iff (lc : Configuration) :
    ((reconcile (some lc)).2 = Action.NoChange ↔
      ∃ r, lc.rules.find? (fun rule => rule.id == ruleID) = some r ∧
        hasCorrectRule r = true) ∧
    ((reconcile (some lc)).2 = Action.NoChange → (reconcile (some lc)).1 = lc) := by
  cases h : lc.rules.find? (fun rule => rule.id == ruleID) with
  | none =>
    rw [reconcile_find_none lc h]
    simp
  | some r =>
    cases hc : hasCorrectRule r with
    | true =>
      rw [reconcile_find_correct lc r h hc]
      exact ⟨⟨fun _ => ⟨r, rfl, hc⟩, fun _ => rfl⟩, fun _ => rfl⟩
    | false =>
      rw [reconcile_find_incorrect lc r h hc]
      refine ⟨⟨fun hcon => by simp at hcon, ?_⟩, fun hcon => by simp at hcon⟩
      rintro ⟨r', hr', hc'⟩
      have hrr : r = r' := Option.some.inj hr'
      rw [← hrr, hc] at hc'
      exact absurd hc' (by decide)

/-! ## Claim C2 -/

/-- C2: `evaluate` (`hasCorrectPolicy`) is true iff some rule of the set has
status enabled, noncurrent expiration of exactly one day, exactly one
retained newest noncurrent version and delete-marker removal on; and the
decision is invariant under arbitrarily rewriting every rule's identifier,
so the identifier plays no role. -/
theorem hasCorrectPolicy_characterization (lc : Configuration) :
    (hasCorrectPolicy lc = true ↔
      ∃ rule ∈ lc.rules,
        rule.status = "Enabled" ∧
        rule.noncurrentVersionExpiration.noncurrentDays = 1 ∧
        rule.noncurrentVersionExpiration.newerNoncurrentVersions = 1 ∧
        rule.expiration.deleteMarker = true) ∧
    ∀ newIDs : Rule → String,
      hasCorrectPolicy ⟨lc.rules.map (fun rule => { rule with id := newIDs rule })⟩ =
        hasCorrectPolicy lc := by
  constructor
  · simp only [hasCorrectPolicy, List.any_eq_true, hasCorrectRule_iff]
  · intro newIDs
    simp only [hasCorrectPolicy, List.any_map]
    rfl

/-! ## Claim C3 -/

/-- C3 (counterexample): the claim asks that the canonical rule always sit
appended as the last element of the output.  On a configuration holding the
canonical managed rule first and one unrelated rule second, `reconcile`
returns the set unmodified, so the last element of the output is the
unrelated rule, not a rule under the reserved identifier. -/
theorem unrelated_rule_last_counterexample :
    reconcile (some ⟨[defaultRule, strangerRule]⟩) =
      ((⟨[defaultRule, strangerRule]⟩ : Configuration), Action.NoChange) ∧
    (reconcile (some ⟨[defaultRule, strangerRule]⟩)).1.rules.getLast? = some strangerRule ∧
    strangerRule.id ≠ ruleID := by
  refine ⟨by decide, by decide, by decide⟩

/-- C3 (amended): for every configuration, the unrelated rules (identifier ≠
reserved) of the output of `reconcile` are exactly the unrelated rules of
the input, unchanged and in their original relative order; the output always
contains a canonical rule under the reserved identifier; whenever
`reconcile` performs an edit (Action Replaced) the output is exactly the
unrelated rules followed by the single canonical managed rule appended as
the last element; and when the action is NoChange the configuration is
returned unmodified, the managed rule keeping its original position. -/
theorem reconcile_preserves_unrelated (lc : Configuration) :
    (reconcile (some lc)).1.rules.filter (fun rule => !(rule.id == ruleID)) =
        lc.rules.filter (fun rule => !(rule.id == ruleID)) ∧
    (∃ r ∈ (reconcile (some lc)).1.rules, r.id = ruleID ∧ hasCorrectRule r = true) ∧
    ((reconcile (some lc)).2 = Action.Replaced →
      (reconcile (some lc)).1.rules =
        lc.rules.filter (fun rule => !(rule.id == ruleID)) ++ [defaultRule]) ∧
    ((reconcile (some lc)).2 = Action.NoChange → (reconcile (some lc)).1 = lc) := by
  cases h : lc.rules.find? (fun rule => rule.id == ruleID) with
  | none =>
    rw [reconcile_find_none lc h]
    have hall : ∀ r ∈ lc.rules, (r.id == ruleID) = false := by
      intro x hx
      have hnx := List.find?_eq_none.mp h x hx
      simpa using hnx
    have hself : lc.rules.filter (fun rule => !(rule.id == ruleID)) = lc.rules := by
      rw [List.filter_eq_self]
      intro a ha
      simp [hall a ha]
    refine ⟨?_, ?_, ?_, ?_⟩
    · rw [List.filter_append, hself]
      simp [defaultRule, ruleID]
    · exact ⟨defaultRule, defaultRule_mem_append _, defaultRule_id, hasCorrectRule_defaultRule⟩
    · intro _
      rw [hself]
    · intro hcon
      exact absurd hcon (by simp)
  | some r =>
    cases hc : hasCorrectRule r with
    | true =>
      rw [reconcile_find_correct lc r h hc]
      have hmem : r ∈ lc.rules := List.mem_of_find?_eq_some h
      have hid : r.id = ruleID := by
        have hp := List.find?_some h
        simpa using hp
      refine ⟨rfl, ⟨r, hmem, hid, hc⟩, ?_, fun _ => rfl⟩
      intro hcon
      exact absurd hcon (by simp)
    | false =>
      rw [reconcile_find_incorrect lc r h hc]
      have hsub : ∀ x ∈ lc.rules.filter (fun rule => !(rule.id == ruleID)),
          (x.id == ruleID) = false := by
        intro x hx
        have hpx := (List.mem_filter.mp hx).2
        simpa using hpx
      refine ⟨?_,
        ⟨defaultRule, defaultRule_mem_append _, defaultRule_id, hasCorrectRule_defaultRule⟩,
        fun _ => rfl, ?_⟩
      · rw [List.filter_append]
        have hidem :
            (lc.rules.filter (fun rule => !(rule.id == ruleID))).filter
              (fun rule => !(rule.id == ruleID)) =
              lc.rules.filter (fun rule => !(rule.id == ruleID)) := by
          rw [List.filter_eq_self]
          intro a ha
          simp [hsub a ha]
        rw [hidem]
        simp [defaultRule, ruleID]
      · intro hcon
        exact absurd hcon (by simp)

/-! ## Claim C4 -/

/-- C4: reconciliation is idempotent — reconciling the configuration
produced by a first `reconcile` (including the one created for the
absent-configuration sentinel) yields Action NoChange and leaves the
configuration unchanged. -/
theorem reconcile_idempotent (olc : Option Configuration) :
    reconcile (some (reconcile olc).1) = ((reconcile olc).1, Action.NoChange) := by
  match olc with
  | none =>
    exact reconcile_find_correct createDefaultLifecycle defaultRule (by decide)
      hasCorrectRule_defaultRule
  | some lc =>
    cases h : lc.rules.find? (fun rule => rule.id == ruleID) with
    | none =>
      rw [reconcile_find_none lc h]
      have hall : ∀ r ∈ lc.rules, (r.id == ruleID) = false := by
        intro x hx
        have hnx := List.find?_eq_none.mp h x hx
        simpa using hnx
      exact reconcile_find_correct ⟨lc.rules ++ [defaultRule]⟩ defaultRule
        (find?_append_defaultRule lc.rules hall) hasCorrectRule_defaultRule
    | some r =>
      cases hc : hasCorrectRule r with
      | true =>
        rw [reconcile_find_correct lc r h hc]
        exact reconcile_find_correct lc r h hc
      | false =>
        rw [reconcile_find_incorrect lc r h hc]
        have hsub : ∀ x ∈ lc.rules.filter (fun rule => !(rule.id == ruleID)),
            (x.id == ruleID) = false := by
          intro x hx
          have hpx := (List.mem_filter.mp hx).2
          simpa using hpx
        exact reconcile_find_correct
          ⟨lc.rules.filter (fun rule => !(rule.id == ruleID)) ++ [defaultRule]⟩
          defaultRule
          (find?_append_defaultRule (lc.rules.filter (fun rule => !(rule.id == ruleID))) hsub)
          hasCorrectRule_defaultRule

/-! ## Claim C5 -/

/-- C5: on the absent-configuration sentinel, `reconcile` returns Action
Created with a singleton configuration whose only rule is the canonical
managed rule under the reserved identifier; absence is a first-class input,
not a failure. -/
theorem reconcile_absent_creates :
    reconcile none = (⟨[defaultRule]⟩, Action.Created) ∧
    (reconcile none).1.rules.length = 1 ∧
    defaultRule.id = ruleID ∧
    hasCorrectRule defaultRule = true := by
  refine ⟨by decide, by decide, by decide, by decide⟩

/-! ## Claim C6 -/

/-- C6 (counterexample): the claim says that whenever the reserved
identifier appears on more than one rule, the output contains exactly one
rule with it.  On a configuration holding the canonical managed rule twice,
`reconcile` performs no edit at all (the first reserved rule is already
correct), so both duplicates survive. -/
theorem duplicate_reserved_survives :
    ((⟨[defaultRule, defaultRule]⟩ : Configuration).rules.filter
      (fun rule => rule.id == ruleID)).length = 2 ∧
    reconcile (some ⟨[defaultRule, defaultRule]⟩) =
      ((⟨[defaultRule, defaultRule]⟩ : Configuration), Action.NoChange) ∧
    ¬ (((reconcile (some ⟨[defaultRule, defaultRule]⟩)).1.rules.filter
      (fun rule => rule.id == ruleID)).length = 1) := by
  refine ⟨by decide, by decide, by decide⟩

/-- C6 (amended): when the reserved identifier appears on more than one rule
and the first rule bearing it is not canonical, `reconcile` edits the set,
removing every rule bearing the reserved identifier before appending the
single canonical rule, so the output contains exactly one rule with the
reserved identifier (the fresh managed rule); if instead the first reserved
rule is already canonical, no edit is performed and the duplicates remain. -/
theorem duplicate_reserved_removed_when_edited (lc : Configuration) (r : Rule)
    (hdup : 2 ≤ (lc.rules.filter (fun rule => rule.id == ruleID)).length)
    (hfind : lc.rules.find? (fun rule => rule.id == ruleID) = some r)
    (hbad : hasCorrectRule r = false) :
    (reconcile (some lc)).1.rules.filter (fun rule => rule.id == ruleID) = [defaultRule] ∧
    (reconcile (some lc)).2 = Action.Replaced := by
  rw [reconcile_find_incorrect lc r hfind hbad]
  refine ⟨?_, rfl⟩
  rw [List.filter_append]
  have h1 : (lc.rules.filter (fun rule => !(rule.id == ruleID))).filter
      (fun rule => rule.id == ruleID) = [] := by
    rw [List.filter_eq_nil_iff]
    intro a ha
    have hpa := (List.mem_filter.mp ha).2
    simpa using hpa
  rw [h1]
  simp
  decide

/-- C6 (witness): the amended statement applied to a configuration holding
two non-canonical rules under the reserved identifier. -/
theorem duplicate_reserved_removed_when_edited_witness :
    2 ≤ ((⟨[badReservedRule, badReservedRule]⟩ : Configuration).rules.filter
      (fun rule => rule.id == ruleID)).length ∧
    hasCorrectRule badReservedRule = false ∧
    ((reconcile (some ⟨[badReservedRule, badReservedRule]⟩)).1.rules.filter
        (fun rule => rule.id == ruleID) = [defaultRule] ∧
      (reconcile (some ⟨[badReservedRule, badReservedRule]⟩)).2 = Action.Replaced) :=
  ⟨by decide, by decide,
    duplicate_reserved_removed_when_edited ⟨[badReservedRule, badReservedRule]⟩
      badReservedRule (by decide) (by decide) (by decide)⟩

/-! ## Pipeline lemmas -/

/-- Invariant of the selection loop: starting below the quota, the number of
selected records never exceeds the quota, and the loop reports the
per-run limit as its stop reason exactly when the selected count equals the
quota. -/
theorem selectGo_le_quota (drains : Bool) (cap quota : Nat)
    (listing : List ObjectInfo) :
    ∀ (total : Nat) (sel : List ObjectInfo), sel.length < quota →
      (selectGo drains cap quota listing total sel).selected.length ≤ quota ∧
      ((selectGo drains cap quota listing total sel).stop = StopReason.limitReached ↔
        (selectGo drains cap quota listing total sel).selected.length = quota) := by
  induction listing with
  | nil =>
    intro total sel hlen
    simp only [selectGo]
    refine ⟨Nat.le_of_lt hlen, ?_, ?_⟩
    · intro hcon
      exact absurd hcon (by simp)
    · intro heq
      omega
  | cons obj restObjs ih =>
    intro total sel hlen
    simp only [selectGo]
    by_cases hl : obj.isLatest = true
    · rw [if_pos hl]
      exact ih _ _ hlen
    · rw [if_neg hl]
      by_cases hsend : drains = true ∨ sel.length < cap
      · rw [if_pos hsend]
        by_cases hq : quota ≤ sel.length + 1
        · rw [if_pos hq]
          refine ⟨?_, ?_, ?_⟩
          · simp
            omega
          · intro _
            simp
            omega
          · intro _
            rfl
        · rw [if_neg hq]
          exact ih _ _ (by simp; omega)
      · rw [if_neg hsend]
        refine ⟨Nat.le_of_lt hlen, ?_, ?_⟩
        · intro hcon
          exact absurd hcon (by simp)
        · intro heq
          simp at heq
          omega

/-- As long as the queue capacity is at least the quota, whether the other
end of the queue is being drained is irrelevant to the selection loop: no
send ever finds the buffer full. -/
theorem selectGo_drains_irrelevant (d₁ d₂ : Bool) (cap quota : Nat) (hqc : quota ≤ cap)
    (listing : List ObjectInfo) :
    ∀ (total : Nat) (sel : List ObjectInfo), sel.length < quota →
      selectGo d₁ cap quota listing total sel = selectGo d₂ cap quota listing total sel := by
  induction listing with
  | nil =>
    intro total sel _
    simp only [selectGo]
  | cons obj restObjs ih =>
    intro total sel hlen
    have hcap : sel.length < cap := Nat.lt_of_lt_of_le hlen hqc
    simp only [selectGo]
    by_cases hl : obj.isLatest = true
    · rw [if_pos hl, if_pos hl]
      exact ih _ _ hlen
    · rw [if_neg hl, if_neg hl, if_pos (Or.inr hcap), if_pos (Or.inr hcap)]
      by_cases hq : quota ≤ sel.length + 1
      · rw [if_pos hq, if_pos hq]
      · rw [if_neg hq, if_neg hq]
        exact ih _ _ (by simp; omega)

/-- As long as the queue capacity is at least the quota, the selection loop
never stops because a send blocked on a full buffer. -/
theorem selectGo_no_block (drains : Bool) (cap quota : Nat) (hqc : quota ≤ cap)
    (listing : List ObjectInfo) :
    ∀ (total : Nat) (sel : List ObjectInfo), sel.length < quota →
      (selectGo drains cap quota listing total sel).stop ≠ StopReason.blockedOnFull := by
  induction listing with
  | nil =>
    intro total sel _
    simp [selectGo]
  | cons obj restObjs ih =>
    intro total sel hlen
    have hcap : sel.length < cap := Nat.lt_of_lt_of_le hlen hqc
    simp only [selectGo]
    by_cases hl : obj.isLatest = true
    · rw [if_pos hl]
      exact ih _ _ hlen
    · rw [if_neg hl, if_pos (Or.inr hcap)]
      by_cases hq : quota ≤ sel.length + 1
      · rw [if_pos hq]
        simp
      · rw [if_neg hq]
        exact ih _ _ (by simp; omega)

/-- Once the selection loop hits the per-run limit, the rest of the listing
is never consumed: extending the listing past the stopping point changes
nothing. -/
theorem selectGo_stops_scan (drains : Bool) (cap quota : Nat)
    (listing : List ObjectInfo) :
    ∀ (extra : List ObjectInfo) (total : Nat) (sel : List ObjectInfo),
      (selectGo drains cap quota listing total sel).stop = StopReason.limitReached →
      selectGo drains cap quota (listing ++ extra) total sel =
        selectGo drains cap quota listing total sel := by
  induction listing with
  | nil =>
    intro extra total sel hstop
    simp only [selectGo] at hstop
    exact absurd hstop (by simp)
  | cons obj restObjs ih =>
    intro extra total sel hstop
    simp only [selectGo] at hstop
    simp only [List.cons_append, selectGo, List.append_eq]
    by_cases hl : obj.isLatest = true
    · rw [if_pos hl, if_pos hl]
      rw [if_pos hl] at hstop
      exact ih _ _ _ hstop
    · rw [if_neg hl, if_neg hl]
      rw [if_neg hl] at hstop
      by_cases hsend : drains = true ∨ sel.length < cap
      · rw [if_pos hsend, if_pos hsend]
        rw [if_pos hsend] at hstop
        by_cases hq : quota ≤ sel.length + 1
        · rw [if_pos hq, if_pos hq]
        · rw [if_neg hq, if_neg hq]
          rw [if_neg hq] at hstop
          exact ih _ _ _ hstop
      · rw [if_neg hsend] at hstop
        simp at hstop

/-- The counting pass of the double-scan variant consumes the whole channel:
it returns the running count plus the number of non-latest records, and an
exhausted channel. -/
theorem drainChannel_spec (listing : List ObjectInfo) :
    ∀ n : Nat,
      drainChannel listing n =
        (n + (listing.filter (fun obj => !obj.isLatest)).length, []) := by
  induction listing with
  | nil =>
    intro n
    simp [drainChannel]
  | cons obj restObjs ih =>
    intro n
    simp only [drainChannel, List.filter_cons]
    by_cases hl : obj.isLatest = true
    · simp [hl, ih]
    · simp [hl, ih]
      omega

/-! ## Claim C7 -/

/-- C7 (counterexample): the claim says selected never exceeds the quota for
every quota.  With quota 0 the limit check of the selection loop runs only
after an enqueue has already happened, so a real run over a listing with one
non-current version selects one record, exceeding the quota of zero. -/
theorem quota_zero_overselect :
    ¬ ((selectStage true 0 0 [nonCurrentObj]).selected.length ≤ 0) := by
  decide

/-- C7 (amended): for every positive quota, the selection stage (queue
capacity = quota, as `cleanSingleBucket` sets both to `maxObjectsPerRun`,
deadline not firing) never selects more than `quota` records; the stage
reports the quota as reached exactly when the selected count equals the
quota; and once the quota is reported reached the rest of the listing is
never consumed.  With quota 0 the check fires only after the first enqueue,
so a single record can still be selected. -/
theorem quota_law (drains : Bool) (quota : Nat) (listing extra : List ObjectInfo)
    (hq : 1 ≤ quota) :
    (selectStage drains quota quota listing).selected.length ≤ quota ∧
    ((selectStage drains quota quota listing).stop = StopReason.limitReached ↔
      (selectStage drains quota quota listing).selected.length = quota) ∧
    ((selectStage drains quota quota listing).stop = StopReason.limitReached →
      selectStage drains quota quota (listing ++ extra) =
        selectStage drains quota quota listing) := by
  have h0 : ([] : List ObjectInfo).length < quota := by
    simpa using hq
  have h1 := selectGo_le_quota drains quota quota listing 0 [] h0
  exact ⟨h1.1, h1.2, fun hstop => selectGo_stops_scan drains quota quota listing extra 0 [] hstop⟩

/-- C7 (witness): the quota law applied with quota 1 to a real-run listing
of two non-current versions followed by one more record. -/
theorem quota_law_witness :
    (1 : Nat) ≤ 1 ∧
    ((selectStage true 1 1 [nonCurrentObj, nonCurrentObjB]).selected.length ≤ 1 ∧
      ((selectStage true 1 1 [nonCurrentObj, nonCurrentObjB]).stop =
          StopReason.limitReached ↔
        (selectStage true 1 1 [nonCurrentObj, nonCurrentObjB]).selected.length = 1) ∧
      ((selectStage true 1 1 [nonCurrentObj, nonCurrentObjB]).stop =
          StopReason.limitReached →
        selectStage true 1 1 ([nonCurrentObj, nonCurrentObjB] ++ [currentObj]) =
          selectStage true 1 1 [nonCurrentObj, nonCurrentObjB])) :=
  ⟨by decide, quota_law true 1 [nonCurrentObj, nonCurrentObjB] [currentObj] (by decide)⟩

/-! ## Claim C8 -/

/-- C8 (counterexample): the claim quantifies over every quota.  With quota
0 the bounded queue has capacity 0, the dry-run selection blocks on its
first send (nothing drains the queue) and selects nothing, while the real
run — whose `RemoveObjects` collaborator drains the queue — selects one
record: the selected counts and record sets differ between the two modes. -/
theorem dry_real_divergence_at_zero_quota :
    (cleanSingleBucket true 0 (fun _ => none) [nonCurrentObj]).selected ≠
      (cleanSingleBucket false 0 (fun _ => none) [nonCurrentObj]).selected ∧
    (cleanSingleBucket true 0 (fun _ => none) [nonCurrentObj]).selected.length = 0 ∧
    (cleanSingleBucket false 0 (fun _ => none) [nonCurrentObj]).selected.length = 1 := by
  refine ⟨by decide, by decide, by decide⟩

/-- C8 (amended): for every positive quota, identical listing and identical
per-object deletion outcomes, the dry-run and real-run pipelines observe the
same number of records and select the same records in the same order, and
under dry run the removed count and the failure list are always zero and
empty. -/
theorem dry_run_equivalence (quota : Nat) (removeResult : ObjectInfo → Option RemoveError)
    (listing : List ObjectInfo) (hq : 1 ≤ quota) :
    (cleanSingleBucket true quota removeResult listing).observed =
      (cleanSingleBucket false quota removeResult listing).observed ∧
    (cleanSingleBucket true quota removeResult listing).selected =
      (cleanSingleBucket false quota removeResult listing).selected ∧
    (cleanSingleBucket true quota removeResult listing).removed = 0 ∧
    (cleanSingleBucket true quota removeResult listing).failures = [] := by
  have h0 : ([] : List ObjectInfo).length < quota := by
    simpa using hq
  have hdr : selectGo false quota quota listing 0 [] = selectGo true quota quota listing 0 [] :=
    selectGo_drains_irrelevant false true quota quota (Nat.le_refl quota) listing 0 [] h0
  simp [cleanSingleBucket, selectStage, hdr]

/-- C8 (witness): dry-run equivalence applied with quota 1, a
failure-free deletion collaborator and a two-record listing. -/
theorem dry_run_equivalence_witness :
    (1 : Nat) ≤ 1 ∧
    ((cleanSingleBucket true 1 (fun _ => none) [currentObj, nonCurrentObj]).observed =
        (cleanSingleBucket false 1 (fun _ => none) [currentObj, nonCurrentObj]).observed ∧
      (cleanSingleBucket true 1 (fun _ => none) [currentObj, nonCurrentObj]).selected =
        (cleanSingleBucket false 1 (fun _ => none) [currentObj, nonCurrentObj]).selected ∧
      (cleanSingleBucket true 1 (fun _ => none) [currentObj, nonCurrentObj]).removed = 0 ∧
      (cleanSingleBucket true 1 (fun _ => none) [currentObj, nonCurrentObj]).failures = []) :=
  ⟨by decide, dry_run_equivalence 1 (fun _ => none) [currentObj, nonCurrentObj] (by decide)⟩

/-! ## Claim C9 -/

/-- C9 (counterexample): the claimed mechanism — every enqueue completes
because at most `quota` records are ever enqueued into the capacity-`quota`
queue — fails at quota 0: the dry-run selection stage blocks on its very
first send into the zero-capacity queue (only the external five-minute
deadline releases it), while a real run enqueues one record, more than the
quota of zero. -/
theorem zero_capacity_blocks :
    (selectStage false 0 0 [nonCurrentObj]).stop = StopReason.blockedOnFull ∧
    (selectStage true 0 0 [nonCurrentObj]).selected.length = 1 := by
  refine ⟨by decide, by decide⟩

/-- C9 (amended): for every positive quota, the selection stage enqueues at
most `quota` records into the bounded queue of capacity `quota`, so every
enqueue completes — the stage never stops blocked on a full buffer — even
when the deletion stage drains nothing, as in dry-run mode; both stages are
structurally terminating functions of the finite listing. -/
theorem no_deadlock (drains : Bool) (quota : Nat) (listing : List ObjectInfo)
    (hq : 1 ≤ quota) :
    (selectStage drains quota quota listing).selected.length ≤ quota ∧
    (selectStage drains quota quota listing).stop ≠ StopReason.blockedOnFull := by
  have h0 : ([] : List ObjectInfo).length < quota := by
    simpa using hq
  exact ⟨(selectGo_le_quota drains quota quota listing 0 [] h0).1,
    selectGo_no_block drains quota quota (Nat.le_refl quota) listing 0 [] h0⟩

/-- C9 (witness): the no-deadlock property applied to a dry run (nothing
drains the queue) with quota 1 over two non-current versions. -/
theorem no_deadlock_witness :
    (1 : Nat) ≤ 1 ∧
    ((selectStage false 1 1 [nonCurrentObj, nonCurrentObjB]).selected.length ≤ 1 ∧
      (selectStage false 1 1 [nonCurrentObj, nonCurrentObjB]).stop ≠
        StopReason.blockedOnFull) :=
  ⟨by decide, no_deadlock false 1 [nonCurrentObj, nonCurrentObjB] (by decide)⟩

/-! ## Claim C10 -/

/-- C10: in the double-scan variant's real-run mode, the counting pass
drains the non-restartable listing channel to exhaustion, so the forwarding
goroutine reads from an already-empty channel: the batch passed to the
deletion collaborator is always empty, even though the logged count equals
the number of non-current versions observed. -/
theorem doubleScan_forwards_nothing (listing : List ObjectInfo) :
    (cleanSingleBucketDoubleScan listing).2 = [] ∧
    (cleanSingleBucketDoubleScan listing).1 =
      (listing.filter (fun obj => !obj.isLatest)).length := by
  simp [cleanSingleBucketDoubleScan, drainChannel_spec listing 0]

end MinioCliner
